import Mathlib

/-!
Shallow embedding of `src/clean_all.py` (cats-love-money), a janitor that
enumerates cloud resources, filters them by a protection label, staleness
and liveness, and deletes the survivors.

Conventions of the embedding:
* Python `datetime` values are modelled as microsecond counts on the
  proleptic Gregorian calendar (days since 0001-01-01, as in Python's
  `toordinal`).  A naive datetime is a `Nat`; an aware datetime carries an
  explicit UTC offset in microseconds.
* `datetime.datetime.today()` (naive local wall clock) and
  `datetime.datetime.now(tz=utc)` (aware UTC) are parameters `localNow`
  and `utcNow` of every function that consults the clock.
* Exceptions are modelled with `Except String` or, for the stateful
  traversal functions, with a trace `List Call × Option String`: the list
  of delete calls actually issued before the run either finished
  (`none`) or aborted with an uncaught exception (`some msg`).
-/

def SKIP_LABEL : String := "please-do-not-kill-me"

def microsPerDay : Nat := 86400000000

/-- Numeric value of a decimal digit character. -/
def digitVal (c : Char) : Nat := c.toNat - 48

/-- Parse exactly `n` decimal digits, returning their value and the rest. -/
def parseExactDigits : Nat → List Char → Option (Nat × List Char)
  | 0, cs => some (0, cs)
  | _ + 1, [] => none
  | n + 1, c :: cs =>
    if c.isDigit then
      match parseExactDigits n cs with
      | some (v, rest) => some (digitVal c * 10 ^ n + v, rest)
      | none => none
    else none

/-- Parse one or two decimal digits, preferring two whenever the two-digit
value satisfies `valid` (mirroring the behaviour of the CPython
`strptime` field regexes such as `1[0-2]|0[1-9]|[1-9]`; every field is
followed by a non-digit literal, so greedy matching agrees with regex
backtracking). -/
def parse1or2 (valid : Nat → Bool) : List Char → Option (Nat × List Char)
  | c1 :: c2 :: rest =>
    if c1.isDigit && c2.isDigit && valid (digitVal c1 * 10 + digitVal c2) then
      some (digitVal c1 * 10 + digitVal c2, rest)
    else if c1.isDigit && valid (digitVal c1) then
      some (digitVal c1, c2 :: rest)
    else none
  | [c1] => if c1.isDigit && valid (digitVal c1) then some (digitVal c1, []) else none
  | [] => none

/-- Expect a literal character. -/
def expectChar (c : Char) : List Char → Option (List Char)
  | x :: rest => if x == c then some rest else none
  | [] => none

/-- Take up to `n` leading digits (as a digit list). -/
def takeDigitsUpTo : Nat → List Char → List Nat × List Char
  | 0, cs => ([], cs)
  | _ + 1, [] => ([], [])
  | n + 1, c :: cs =>
    if c.isDigit then
      let r := takeDigitsUpTo n cs
      (digitVal c :: r.fst, r.snd)
    else ([], c :: cs)

def digitsToNat (ds : List Nat) : Nat := ds.foldl (fun a d => a * 10 + d) 0

/-- `%f`: one to six fractional-second digits, right-padded to microseconds. -/
def parseFrac (cs : List Char) : Option (Nat × List Char) :=
  let r := takeDigitsUpTo 6 cs
  if r.fst.isEmpty then none
  else some (digitsToNat r.fst * 10 ^ (6 - r.fst.length), r.snd)

def isLeapYear (y : Nat) : Bool := (y % 4 == 0 && y % 100 != 0) || y % 400 == 0

def daysInMonth (y m : Nat) : Nat :=
  if m == 2 then (if isLeapYear y then 29 else 28)
  else if m == 4 || m == 6 || m == 9 || m == 11 then 30
  else 31

/-- Days in year `y` strictly before month `m`. -/
def daysBeforeMonth (y m : Nat) : Nat :=
  (List.range (m - 1)).foldl (fun acc i => acc + daysInMonth y (i + 1)) 0

/-- Days since 0001-01-01 of the civil date `y-m-d` (0-based; Python's
`date.toordinal` minus one). -/
def toOrdinalDays (y m d : Nat) : Nat :=
  let py := y - 1
  py * 365 + py / 4 + py / 400 - py / 100 + daysBeforeMonth y m + (d - 1)

/-- Validate the ranges the `datetime` constructor enforces and build the
naive microsecond count. -/
def mkNaiveMicros (y m d h mi s f : Nat) : Option Nat :=
  if 1 ≤ y && y ≤ 9999 && 1 ≤ m && m ≤ 12 && 1 ≤ d && d ≤ daysInMonth y m
      && h ≤ 23 && mi ≤ 59 && s ≤ 59 && f ≤ 999999 then
    some (toOrdinalDays y m d * microsPerDay
      + h * 3600000000 + mi * 60000000 + s * 1000000 + f)
  else none

/-- Unchecked civil-time to microseconds conversion (for stating tests). -/
def civilMicros (y m d h mi s : Nat) : Nat :=
  toOrdinalDays y m d * microsPerDay + h * 3600000000 + mi * 60000000 + s * 1000000

/-- The result of `datetime.datetime.fromisoformat`: a wall-clock
microsecond count plus an optional UTC offset (none = naive). -/
structure PyDateTime where
  naiveMicros : Nat
  offsetMicros : Option Int
deriving DecidableEq

/-- A parsed aware datetime as a UTC instant. -/
def PyDateTime.utcMicros (dt : PyDateTime) : Int :=
  (dt.naiveMicros : Int) - (dt.offsetMicros.getD 0)

/-- `datetime.datetime.strptime(date, "%Y-%m-%dT%H:%M:%S.%fZ")`, returning
the naive microsecond count, or `none` where Python raises `ValueError`
(including out-of-range calendar components rejected by the `datetime`
constructor). -/
def strptimeYmdHMSfZ (s : String) : Option Nat := do
  let cs := s.toList
  let (y, cs) ← parseExactDigits 4 cs
  let cs ← expectChar '-' cs
  let (m, cs) ← parse1or2 (fun v => 1 ≤ v && v ≤ 12) cs
  let cs ← expectChar '-' cs
  let (d, cs) ← parse1or2 (fun v => 1 ≤ v && v ≤ 31) cs
  let cs ← expectChar 'T' cs
  let (h, cs) ← parse1or2 (fun v => v ≤ 23) cs
  let cs ← expectChar ':' cs
  let (mi, cs) ← parse1or2 (fun v => v ≤ 59) cs
  let cs ← expectChar ':' cs
  let (sec, cs) ← parse1or2 (fun v => v ≤ 59) cs
  let cs ← expectChar '.' cs
  let (f, cs) ← parseFrac cs
  let cs ← expectChar 'Z' cs
  if cs.isEmpty then mkNaiveMicros y m d h mi sec f else none

/-- Split a pre-3.11 isoformat time string at the first timezone sign
character (true = plus sign). -/
def splitTz : List Char → List Char × Option (Bool × List Char)
  | [] => ([], none)
  | c :: cs =>
    if c == '+' then ([], some (true, cs))
    else if c == '-' then ([], some (false, cs))
    else
      let r := splitTz cs
      (c :: r.fst, r.snd)

/-- `HH[:MM[:SS[.fff or .ffffff]]]`, consuming the whole input. -/
def parseHMSF (cs : List Char) : Option (Nat × Nat × Nat × Nat) :=
  match parseExactDigits 2 cs with
  | none => none
  | some (h, cs) =>
    match cs with
    | [] => some (h, 0, 0, 0)
    | ':' :: cs =>
      match parseExactDigits 2 cs with
      | none => none
      | some (m, cs) =>
        match cs with
        | [] => some (h, m, 0, 0)
        | ':' :: cs =>
          match parseExactDigits 2 cs with
          | none => none
          | some (s, cs) =>
            match cs with
            | [] => some (h, m, s, 0)
            | '.' :: cs =>
              let r := takeDigitsUpTo 6 cs
              if r.snd.isEmpty && (r.fst.length == 3 || r.fst.length == 6) then
                some (h, m, s, digitsToNat r.fst * 10 ^ (6 - r.fst.length))
              else none
            | _ => none
        | _ => none
    | _ => none

/-- `datetime.datetime.fromisoformat` (pre-3.11 grammar:
`YYYY-MM-DD[*HH[:MM[:SS[.fff[fff]]]][(+|-)HH:MM[:SS[.ffffff]]]]`), or
`none` where Python raises `ValueError`. -/
def fromisoformat (s : String) : Option PyDateTime := do
  let cs := s.toList
  let (y, cs) ← parseExactDigits 4 cs
  let cs ← expectChar '-' cs
  let (m, cs) ← parseExactDigits 2 cs
  let cs ← expectChar '-' cs
  let (d, cs) ← parseExactDigits 2 cs
  match cs with
  | [] => do
    let n ← mkNaiveMicros y m d 0 0 0 0
    some { naiveMicros := n, offsetMicros := none }
  | _sep :: rest =>
    if rest.isEmpty then none
    else
      let st := splitTz rest
      match parseHMSF st.fst with
      | none => none
      | some (h, mi, sec, f) => do
        let n ← mkNaiveMicros y m d h mi sec f
        match st.snd with
        | none => some { naiveMicros := n, offsetMicros := none }
        | some (sign, tzCs) =>
          if tzCs.length == 5 || tzCs.length == 8 || tzCs.length == 15 then
            match parseHMSF tzCs with
            | none => none
            | some (oh, om, os, of_) =>
              let offMag : Nat := oh * 3600000000 + om * 60000000 + os * 1000000 + of_
              if offMag < microsPerDay then
                let off : Int := if sign then (offMag : Int) else -(offMag : Int)
                some { naiveMicros := n, offsetMicros := some off }
              else none
          else none

namespace BaseDiscoveryClient

/-- `BaseDiscoveryClient.is_stale`.  Mirrors

    try:
        today = datetime.datetime.today()
        time = datetime.datetime.strptime(date, "%Y-%m-%dT%H:%M:%S.%fZ")
    except ValueError:
        today = datetime.datetime.now(tz=datetime.timezone.utc)
        time = datetime.datetime.fromisoformat(date)
    return time < today - datetime.timedelta(days=1)

`localNow` is the naive local wall clock, `utcNow` the aware UTC clock.
An unparseable string propagates `ValueError`; a naive `fromisoformat`
result compared against the aware `today` propagates `TypeError`. -/
def is_stale (date : String) (localNow utcNow : Int) : Except String Bool :=
  match strptimeYmdHMSfZ date with
  | some t => .ok (decide ((t : Int) < localNow - (microsPerDay : Int)))
  | none =>
    match fromisoformat date with
    | none => .error "ValueError: invalid isoformat string"
    | some dt =>
      match dt.offsetMicros with
      | none => .error "TypeError: cannot compare offset-naive and offset-aware datetimes"
      | some off =>
        .ok (decide ((dt.naiveMicros : Int) - off < utcNow - (microsPerDay : Int)))

end BaseDiscoveryClient

/-- One page of a discovery list response: a record mapping response keys
to lists of resource descriptors (`response.get(key, [])`). -/
structure Page (α : Type) where
  fields : List (String × List α)
deriving DecidableEq

def Page.get {α : Type} (p : Page α) (key : String) : List α :=
  match p.fields.lookup key with
  | some l => l
  | none => []

/-- A discovery listing endpoint, as `_iterate` consumes it: the successive
responses produced by `list` and then `list_next`, and whether the
endpoint has a `list_next` attribute at all (when it does not, the first
call to it raises `AttributeError`). -/
structure DiscoveryEndpoint (α : Type) where
  pages : List (Page α)
  hasListNext : Bool
deriving DecidableEq

namespace BaseDiscoveryClient

/-- The response-consuming loop of `_iterate`: extend with the current
page's entries under `key`; if `list_next` is missing the
`AttributeError` breaks the loop after the first page, otherwise follow
continuations until the source returns `None` (no pages left). -/
def iterPages {α : Type} (key : String) (hasListNext : Bool) :
    List (Page α) → List α
  | [] => []
  | p :: rest =>
    if hasListNext then p.get key ++ iterPages key hasListNext rest
    else p.get key

/-- `BaseDiscoveryClient._iterate` (the default response key is "items"). -/
def _iterate {α : Type} (endpoint : DiscoveryEndpoint α)
    (key : String := "items") : List α :=
  iterPages key endpoint.hasListNext endpoint.pages

/-- `BaseDiscoveryClient._singular_name`: drop a trailing "s"
(`name[:-1] if name.endswith("s") else name`). -/
def _singular_name (name : String) : String :=
  if name.toList.getLast? == some 's' then String.mk name.toList.dropLast
  else name

end BaseDiscoveryClient

inductive LogLevel
  | debug
  | info
  | warning
  | error
deriving DecidableEq

structure LogEntry where
  level : LogLevel
  message : String
deriving DecidableEq

namespace BaseDiscoveryClient

/-- `BaseDiscoveryClient._delete`.  The delete call itself is passed in as
its outcome (`Except`); the function returns whether the deletion
succeeded together with the log lines emitted.  Every exception from the
delete call is caught and turned into a warning, so the function is
total. -/
def _delete (resource_name resource_id : String)
    (deleteCall : Except String Unit) : Bool × List LogEntry :=
  let singular_name := _singular_name resource_name
  match deleteCall with
  | .ok _ =>
    (true, [⟨.info, "Deleting " ++ singular_name ++ ": " ++ resource_id⟩])
  | .error err =>
    (false,
      [⟨.info, "Deleting " ++ singular_name ++ ": " ++ resource_id⟩,
       ⟨.warning, "Failed to delete " ++ singular_name ++ ": " ++ err⟩])

end BaseDiscoveryClient

/-- Does `sub` occur as a contiguous substring of `s` (Python's `in`)? -/
def charsContain (sub : List Char) : List Char → Bool
  | [] => sub.isEmpty
  | c :: rest => List.isPrefixOf sub (c :: rest) || charsContain sub rest

def strContains (s sub : String) : Bool := charsContain sub.toList s.toList

/-- `googleapiclient.errors.HttpError`, restricted to the two pieces
`_delete_in_all_locations` inspects: `int(err.resp["status"])` and
`str(err)`. -/
structure HttpError where
  status : Nat
  message : String
deriving DecidableEq

namespace BaseDiscoveryClient

/-- `BaseDiscoveryClient._delete_in_all_locations`, with the subclass's
`_delete_all_in_location` abstracted as `act`.  Returns the locations
actually attempted and `some err` when an `HttpError` was re-raised
(aborting the remaining locations).  A server error (status >= 500) or an
"Unexpected location" error is swallowed and the loop continues. -/
def _delete_in_all_locations (act : String → Except HttpError Unit) :
    List String → List String × Option HttpError
  | [] => ([], none)
  | loc :: rest =>
    match act loc with
    | .ok _ =>
      let r := _delete_in_all_locations act rest
      (loc :: r.fst, r.snd)
    | .error err =>
      if 500 ≤ err.status then
        let r := _delete_in_all_locations act rest
        (loc :: r.fst, r.snd)
      else if strContains err.message "Unexpected location" then
        let r := _delete_in_all_locations act rest
        (loc :: r.fst, r.snd)
      else ([loc], some err)

end BaseDiscoveryClient

/-- `run_cleaning`: log the attempt, run the kind's cleanup (its outcome
passed in as an `Except`), and catch any exception, logging it.  Total:
no failure of `func` escapes. -/
def run_cleaning (name : String) (func : Except String Unit) : List LogEntry :=
  ⟨.warning, "Attempting to clean " ++ name⟩ ::
    match func with
    | .ok _ => [⟨.info, "Cleaning of " ++ name ++ " done"⟩]
    | .error _ => [⟨.error, "Failed to clean " ++ name⟩]

/-- `delete_resources`, with each per-kind cleanup operation abstracted by
its outcome `outcome name`.  Mirrors the fixed sequence of `run_cleaning`
calls of the source. -/
def delete_resources (outcome : String → Except String Unit) : List LogEntry :=
  ⟨.info, "Starting the cleanup"⟩ ::
    (run_cleaning "composer instances" (outcome "composer instances")
      ++ run_cleaning "GKE clusters" (outcome "GKE clusters")
      ++ run_cleaning "dataproc clusters" (outcome "dataproc clusters")
      ++ run_cleaning "compute instances" (outcome "compute instances")
      ++ run_cleaning "compute disks" (outcome "compute disks")
      ++ run_cleaning "memorystore redis instances" (outcome "memorystore redis instances")
      ++ [⟨.info, "Done"⟩])

/-- Split a character list on the slash separator (Python `s.split("/")`:
adjacent separators and edges produce empty groups). -/
def splitSlash : List Char → List (List Char)
  | [] => [[]]
  | c :: cs =>
    let r := splitSlash cs
    if c == '/' then [] :: r
    else
      match r with
      | [] => [[c]]
      | g :: gs => (c :: g) :: gs

/-- The last component of `s.split("/")` (Python `s.split("/")[-1]`). -/
def lastPathSegment (s : String) : String :=
  String.mk ((splitSlash s.toList).getLastD [])

/-- Key membership in an optional label mapping: Python's
`SKIP_LABEL not in obj.get("labels", {})` negated.  `none` models a
missing field (the default `{}` or `[]` — both contain no key). -/
def hasLabelKey (labels : Option (List (String × String))) (key : String) : Bool :=
  match labels with
  | none => false
  | some ls => ls.any (fun p => p.fst == key)

/-- A compute resource descriptor (instance or disk) with the fields
`ComputeClient._delete_all` reads.  `labels` and `users` are optional
because the source accesses them with `.get`. -/
structure ComputeResource where
  id : String
  creationTimestamp : String
  zone : String
  labels : Option (List (String × String)) := none
  users : Option (List String) := none
deriving DecidableEq

/-- `not bool(obj.get("users"))`: true when the `users` field is missing
or an empty list. -/
def hasNoUsersOf (users : Option (List String)) : Bool :=
  match users with
  | none => true
  | some us => us.isEmpty

/-- The keyword arguments of the delete request issued by
`ComputeClient._delete_all`. -/
structure ComputeDeleteCall where
  project : String
  zone : String
  resourceKey : String
  resourceId : String
deriving DecidableEq

namespace ComputeClient

/-- The delete payload built for one compute resource: the zone is
re-derived from the resource's own `zone` field and the resource key is
the singularized endpoint name. -/
def mkDeleteCall (project_id endpoint_name : String) (obj : ComputeResource) :
    ComputeDeleteCall :=
  { project := project_id
    zone := lastPathSegment obj.zone
    resourceKey := BaseDiscoveryClient._singular_name endpoint_name
    resourceId := obj.id }

/-- The inner loop of `ComputeClient._delete_all` over the resources of
one zone.  `is_stale` is evaluated for every resource (before the
conjunction is tested); if it raises, the uncaught exception aborts the
traversal (`some msg`), keeping the delete calls already issued. -/
def processObjs (project_id endpoint_name : String) (localNow utcNow : Int) :
    List ComputeResource → List ComputeDeleteCall × Option String
  | [] => ([], none)
  | obj :: rest =>
    let is_not_labeled := !(hasLabelKey obj.labels SKIP_LABEL)
    match BaseDiscoveryClient.is_stale obj.creationTimestamp localNow utcNow with
    | .error e => ([], some e)
    | .ok stale =>
      let r := processObjs project_id endpoint_name localNow utcNow rest
      if is_not_labeled && stale && hasNoUsersOf obj.users then
        (mkDeleteCall project_id endpoint_name obj :: r.fst, r.snd)
      else r

/-- `ComputeClient._delete_all`: iterate over all zones, list the objects
of `endpoint_name` in each (via `_iterate` with the default "items"
key), and delete the unprotected stale unused ones.  `eps zone` is the
discovery endpoint obtained for that zone. -/
def _delete_all (project_id endpoint_name : String) (zones : List String)
    (eps : String → DiscoveryEndpoint ComputeResource) (localNow utcNow : Int) :
    List ComputeDeleteCall × Option String :=
  match zones with
  | [] => ([], none)
  | z :: rest =>
    let r := processObjs project_id endpoint_name localNow utcNow
      (BaseDiscoveryClient._iterate (eps z) "items")
    match r.snd with
    | some e => (r.fst, some e)
    | none =>
      let r2 := _delete_all project_id endpoint_name rest eps localNow utcNow
      (r.fst ++ r2.fst, r2.snd)

end ComputeClient

/-- A GKE cluster descriptor with the fields
`GKEClient.delete_all_clusters` reads. -/
structure GKECluster where
  name : String
  createTime : String
  zone : String
  resourceLabels : Option (List (String × String)) := none
deriving DecidableEq

/-- The delete request issued for a GKE cluster (its only argument is the
fully-qualified name). -/
structure GKEDeleteCall where
  name : String
deriving DecidableEq

namespace GKEClient

def mkDeleteCall (project_id : String) (cluster : GKECluster) : GKEDeleteCall :=
  { name := "projects/" ++ project_id ++ "/locations/" ++ cluster.zone
      ++ "/clusters/" ++ cluster.name }

/-- The loop of `GKEClient.delete_all_clusters` over the listed clusters.
The `and` short-circuits: `is_stale` is only evaluated for clusters
without the protection label. -/
def processClusters (project_id : String) (localNow utcNow : Int) :
    List GKECluster → List GKEDeleteCall × Option String
  | [] => ([], none)
  | cluster :: rest =>
    if hasLabelKey cluster.resourceLabels SKIP_LABEL then
      processClusters project_id localNow utcNow rest
    else
      match BaseDiscoveryClient.is_stale cluster.createTime localNow utcNow with
      | .error e => ([], some e)
      | .ok stale =>
        let r := processClusters project_id localNow utcNow rest
        if stale then (mkDeleteCall project_id cluster :: r.fst, r.snd) else r

/-- `GKEClient.delete_all_clusters`: one wildcard list request over all
locations; when the response has no "clusters" key, log an error and
return without deleting anything. -/
def delete_all_clusters (project_id : String)
    (list_response : Option (List GKECluster)) (localNow utcNow : Int) :
    List GKEDeleteCall × Option String :=
  match list_response with
  | none => ([], none)
  | some clusters => processClusters project_id localNow utcNow clusters

end GKEClient

/-- A dataproc cluster descriptor with the fields
`DataprocClient._delete_all_in_location` reads (`stateStartTime` is
`cluster["status"]["stateStartTime"]`). -/
structure DataprocCluster where
  clusterName : String
  stateStartTime : String
  labels : Option (List (String × String)) := none
deriving DecidableEq

structure DataprocDeleteCall where
  projectId : String
  region : String
  clusterName : String
deriving DecidableEq

namespace DataprocClient

def mkDeleteCall (project_id location : String) (cluster : DataprocCluster) :
    DataprocDeleteCall :=
  { projectId := project_id
    region := location
    clusterName := cluster.clusterName }

/-- The loop of `DataprocClient._delete_all_in_location` over the listed
clusters (short-circuiting `and`, as for GKE). -/
def processClusters (project_id location : String) (localNow utcNow : Int) :
    List DataprocCluster → List DataprocDeleteCall × Option String
  | [] => ([], none)
  | cluster :: rest =>
    if hasLabelKey cluster.labels SKIP_LABEL then
      processClusters project_id location localNow utcNow rest
    else
      match BaseDiscoveryClient.is_stale cluster.stateStartTime localNow utcNow with
      | .error e => ([], some e)
      | .ok stale =>
        let r := processClusters project_id location localNow utcNow rest
        if stale then (mkDeleteCall project_id location cluster :: r.fst, r.snd)
        else r

/-- `DataprocClient._delete_all_in_location`: list the region's clusters
via `_iterate` under the "clusters" key, then delete the unprotected
stale ones. -/
def _delete_all_in_location (project_id location : String)
    (ep : DiscoveryEndpoint DataprocCluster) (localNow utcNow : Int) :
    List DataprocDeleteCall × Option String :=
  processClusters project_id location localNow utcNow
    (BaseDiscoveryClient._iterate ep "clusters")

end DataprocClient

/-- A composer environment descriptor with the fields
`ComposerClient._delete_all_in_location` reads. -/
structure ComposerEnv where
  name : String
  updateTime : String
  labels : Option (List (String × String)) := none
deriving DecidableEq

structure ComposerDeleteCall where
  name : String
deriving DecidableEq

namespace ComposerClient

/-- The loop of `ComposerClient._delete_all_in_location` over the listed
environments (short-circuiting `and`). -/
def processEnvs (localNow utcNow : Int) :
    List ComposerEnv → List ComposerDeleteCall × Option String
  | [] => ([], none)
  | env :: rest =>
    if hasLabelKey env.labels SKIP_LABEL then processEnvs localNow utcNow rest
    else
      match BaseDiscoveryClient.is_stale env.updateTime localNow utcNow with
      | .error e => ([], some e)
      | .ok stale =>
        let r := processEnvs localNow utcNow rest
        if stale then (⟨env.name⟩ :: r.fst, r.snd) else r

/-- `ComposerClient._delete_all_in_location`: list the location's
environments via `_iterate` under the "environments" key, then delete
the unprotected stale ones (the delete payload is the environment's full
name). -/
def _delete_all_in_location (ep : DiscoveryEndpoint ComposerEnv)
    (localNow utcNow : Int) : List ComposerDeleteCall × Option String :=
  processEnvs localNow utcNow (BaseDiscoveryClient._iterate ep "environments")

end ComposerClient

/-- A memorystore redis instance descriptor with the fields
`MemorystoreRedisClient._delete_all_in_location` reads. -/
structure RedisInstance where
  name : String
  createTime : String
  labels : Option (List (String × String)) := none
deriving DecidableEq

structure RedisDeleteCall where
  name : String
deriving DecidableEq

namespace MemorystoreRedisClient

/-- The loop of `MemorystoreRedisClient._delete_all_in_location` over the
listed instances (short-circuiting `and`). -/
def processInstances (localNow utcNow : Int) :
    List RedisInstance → List RedisDeleteCall × Option String
  | [] => ([], none)
  | inst :: rest =>
    if hasLabelKey inst.labels SKIP_LABEL then processInstances localNow utcNow rest
    else
      match BaseDiscoveryClient.is_stale inst.createTime localNow utcNow with
      | .error e => ([], some e)
      | .ok stale =>
        let r := processInstances localNow utcNow rest
        if stale then (⟨inst.name⟩ :: r.fst, r.snd) else r

/-- `MemorystoreRedisClient._delete_all_in_location`: list the location's
instances via `_iterate` under the "instances" key, then delete the
unprotected stale ones (the delete payload is the instance's name). -/
def _delete_all_in_location (ep : DiscoveryEndpoint RedisInstance)
    (localNow utcNow : Int) : List RedisDeleteCall × Option String :=
  processInstances localNow utcNow (BaseDiscoveryClient._iterate ep "instances")

end MemorystoreRedisClient

/-! Spec-side definitions and concrete fixtures used in the statements. -/

/-- The staleness verdict when `is_stale` returns normally (used to state
the delete-iff-stale characterizations). -/
def staleOk (ts : String) (localNow utcNow : Int) : Bool :=
  match BaseDiscoveryClient.is_stale ts localNow utcNow with
  | .ok b => b
  | .error _ => false

/-- Attempting a whole sequence of deletes through `_delete`: each
resource is attempted and paired with whether its delete succeeded. -/
def deleteSequence (resource_name : String)
    (deleteCall : String → Except String Unit) (ids : List String) :
    List (String × Bool) :=
  ids.map (fun i => (i, (BaseDiscoveryClient._delete resource_name i (deleteCall i)).fst))

/-- Project a warning-level log entry to its message. -/
def pickWarning (e : LogEntry) : Option String :=
  match e.level with
  | .warning => some e.message
  | _ => none

/-- The warning-level messages of a log, in order. -/
def warningMessages (log : List LogEntry) : List String :=
  log.filterMap pickWarning

/-- A UTC/local "now" of 2020-01-03T00:00:00 for the staleness tests. -/
def now20200103 : Int := (civilMicros 2020 1 3 0 0 0 : Nat)

/-- Three pages of two items each (then a terminal page), for the
pagination scenario. -/
def pagEx : DiscoveryEndpoint Nat :=
  { pages := [⟨[("items", [1, 2])]⟩, ⟨[("items", [3, 4])]⟩, ⟨[("items", [5, 6])]⟩]
    hasListNext := true }

/-- The same pages but on an endpoint without `list_next`. -/
def pagNoNext : DiscoveryEndpoint Nat :=
  { pages := [⟨[("items", [1, 2])]⟩, ⟨[("items", [3, 4])]⟩, ⟨[("items", [5, 6])]⟩]
    hasListNext := false }

/-- A delete executor that fails exactly on resource "r2". -/
def failSecond : String → Except String Unit :=
  fun i => if i == "r2" then .error "boom" else .ok ()

/-- A per-location routine that raises a 503 on location "loc-a" and
succeeds elsewhere. -/
def act503 : String → Except HttpError Unit :=
  fun l => if l == "loc-a" then .error ⟨503, "Service Unavailable"⟩ else .ok ()

/-- A stale, unprotected, unused compute resource listed in zone
"zone-a" whose own `zone` field points at zone-b. -/
def objZoneDrift : ComputeResource :=
  { id := "disk-1"
    creationTimestamp := "2020-01-01T00:00:00.000000Z"
    zone := "https://www.googleapis.com/compute/v1/projects/p/zones/zone-b" }

/-- A single-page listing returning `objZoneDrift` in every zone. -/
def epsZoneDrift : String → DiscoveryEndpoint ComputeResource :=
  fun _ => { pages := [⟨[("items", [objZoneDrift])]⟩], hasListNext := true }

/-- Stale unprotected compute resource with a non-empty `users` list. -/
def objWithUsers : ComputeResource :=
  { id := "disk-used"
    creationTimestamp := "2020-01-01T00:00:00.000000Z"
    zone := "prefix/zone-a"
    users := some ["instances/i9"] }

/-- Stale unprotected compute resource without a `users` field. -/
def objNoUsersField : ComputeResource :=
  { id := "disk-free"
    creationTimestamp := "2020-01-01T00:00:00.000000Z"
    zone := "prefix/zone-a" }

/-- Stale unprotected compute resource with an empty `users` list. -/
def objEmptyUsers : ComputeResource :=
  { id := "disk-empty"
    creationTimestamp := "2020-01-01T00:00:00.000000Z"
    zone := "prefix/zone-a"
    users := some [] }

/-- A protected (labelled) stale compute resource next to an unprotected
one, listed in a single zone. -/
def objProtected : ComputeResource :=
  { id := "disk-keep"
    creationTimestamp := "2020-01-01T00:00:00.000000Z"
    zone := "prefix/zone-a"
    labels := some [(SKIP_LABEL, "x")] }

def epsProtectedPair : String → DiscoveryEndpoint ComputeResource :=
  fun _ => { pages := [⟨[("items", [objProtected, objZoneDrift])]⟩], hasListNext := true }

/-- A stale unprotected dataproc cluster and a protected one. -/
def dpStale : DataprocCluster :=
  { clusterName := "dp-old", stateStartTime := "2020-01-01T00:00:00.000000Z" }

def dpProtected : DataprocCluster :=
  { clusterName := "dp-keep"
    stateStartTime := "not-even-a-timestamp"
    labels := some [(SKIP_LABEL, "1")] }

def dpEndpoint : DiscoveryEndpoint DataprocCluster :=
  { pages := [⟨[("clusters", [dpProtected, dpStale])]⟩], hasListNext := true }

/-! Theorems. -/

theorem is_stale_of_strptime (date : String) (localNow utcNow : Int) (t : Nat)
    (h : strptimeYmdHMSfZ date = some t) :
    BaseDiscoveryClient.is_stale date localNow utcNow
      = .ok (decide ((t : Int) < localNow - (microsPerDay : Int))) := by
  unfold BaseDiscoveryClient.is_stale
  rw [h]

theorem is_stale_of_fromiso (date : String) (localNow utcNow : Int)
    (dt : PyDateTime) (off : Int) (h0 : strptimeYmdHMSfZ date = none)
    (h1 : fromisoformat date = some dt) (h2 : dt.offsetMicros = some off) :
    BaseDiscoveryClient.is_stale date localNow utcNow
      = .ok (decide ((dt.naiveMicros : Int) - off < utcNow - (microsPerDay : Int))) := by
  unfold BaseDiscoveryClient.is_stale
  rw [h0, h1]
  dsimp only
  rw [h2]

/-- C3: `is_stale(timestamp)` parses its input first as
"%Y-%m-%dT%H:%M:%S.%fZ" (compared against the local wall-clock now) and
on parse failure as full ISO-8601 with offset (compared against UTC
now), and returns true iff the parsed timestamp is strictly earlier than
now minus 24 hours; with now = 2020-01-03T00:00:00, a timestamp 24h+1s
before now yields true, a timestamp 23h59m before now yields false, and
a timestamp 2 days in the future yields false. -/
theorem C3_is_stale_spec :
    (∀ (date : String) (localNow utcNow : Int) (t : Nat),
      strptimeYmdHMSfZ date = some t →
      BaseDiscoveryClient.is_stale date localNow utcNow
        = .ok (decide ((t : Int) < localNow - (microsPerDay : Int))))
    ∧ (∀ (date : String) (localNow utcNow : Int) (dt : PyDateTime) (off : Int),
      strptimeYmdHMSfZ date = none → fromisoformat date = some dt →
      dt.offsetMicros = some off →
      BaseDiscoveryClient.is_stale date localNow utcNow
        = .ok (decide ((dt.naiveMicros : Int) - off < utcNow - (microsPerDay : Int))))
    ∧ BaseDiscoveryClient.is_stale "2020-01-01T23:59:59.000000Z" now20200103 now20200103
        = .ok true
    ∧ BaseDiscoveryClient.is_stale "2020-01-02T00:01:00.000000Z" now20200103 now20200103
        = .ok false
    ∧ BaseDiscoveryClient.is_stale "2020-01-05T00:00:00.000000Z" now20200103 now20200103
        = .ok false := by
  refine ⟨is_stale_of_strptime, is_stale_of_fromiso, ?_, ?_, ?_⟩
  · rfl
  · rfl
  · rfl

theorem C3_witness :
    BaseDiscoveryClient.is_stale "2021-06-10T12:00:00.000000Z" 0 0
      = .ok (decide (((civilMicros 2021 6 10 12 0 0 : Nat) : Int)
          < 0 - (microsPerDay : Int))) :=
  C3_is_stale_spec.1 "2021-06-10T12:00:00.000000Z" 0 0
    (civilMicros 2021 6 10 12 0 0) (by rfl)

theorem is_stale_valueError (date : String) (localNow utcNow : Int)
    (h0 : strptimeYmdHMSfZ date = none) (h1 : fromisoformat date = none) :
    BaseDiscoveryClient.is_stale date localNow utcNow
      = .error "ValueError: invalid isoformat string" := by
  unfold BaseDiscoveryClient.is_stale
  rw [h0, h1]

theorem is_stale_typeError (date : String) (localNow utcNow : Int)
    (dt : PyDateTime) (h0 : strptimeYmdHMSfZ date = none)
    (h1 : fromisoformat date = some dt) (h2 : dt.offsetMicros = none) :
    BaseDiscoveryClient.is_stale date localNow utcNow
      = .error "TypeError: cannot compare offset-naive and offset-aware datetimes" := by
  unfold BaseDiscoveryClient.is_stale
  rw [h0, h1]
  dsimp only
  rw [h2]

/-- C9: `is_stale` is partial: a string matching neither accepted format
makes it raise (ValueError) rather than return a boolean, and an
ISO-8601 string without fractional seconds and without an explicit
offset, such as "2020-01-01T00:00:00", parses on the fallback path to a
naive datetime whose comparison with the aware UTC now raises
(TypeError); such a timestamp aborts the enclosing per-kind routine
(here `ComputeClient.processObjs` stops with an uncaught exception)
instead of being classified stale or fresh. -/
theorem C9_is_stale_partial :
    (∀ (date : String) (localNow utcNow : Int),
      strptimeYmdHMSfZ date = none → fromisoformat date = none →
      BaseDiscoveryClient.is_stale date localNow utcNow
        = .error "ValueError: invalid isoformat string")
    ∧ (∀ (date : String) (localNow utcNow : Int) (dt : PyDateTime),
      strptimeYmdHMSfZ date = none → fromisoformat date = some dt →
      dt.offsetMicros = none →
      BaseDiscoveryClient.is_stale date localNow utcNow
        = .error "TypeError: cannot compare offset-naive and offset-aware datetimes")
    ∧ (∀ localNow utcNow : Int,
      BaseDiscoveryClient.is_stale "2020-01-01T00:00:00" localNow utcNow
        = .error "TypeError: cannot compare offset-naive and offset-aware datetimes")
    ∧ (∀ localNow utcNow : Int,
      (ComputeClient.processObjs "p" "disks" localNow utcNow
        [{ id := "d1", creationTimestamp := "2020-01-01T00:00:00",
           zone := "zones/z" }]).snd
        = some "TypeError: cannot compare offset-naive and offset-aware datetimes") := by
  refine ⟨is_stale_valueError, is_stale_typeError, fun _ _ => rfl, fun _ _ => rfl⟩

theorem C9_witness :
    BaseDiscoveryClient.is_stale "not-a-timestamp" 0 0
      = .error "ValueError: invalid isoformat string" :=
  C9_is_stale_partial.1 "not-a-timestamp" 0 0 (by rfl) (by rfl)

theorem iterPages_flatten {α : Type} (key : String) :
    ∀ ps : List (Page α),
      BaseDiscoveryClient.iterPages key true ps
        = (ps.map (fun p => p.get key)).flatten := by
  intro ps
  induction ps with
  | nil => rfl
  | cons p rest ih =>
    simp [BaseDiscoveryClient.iterPages, ih]

/-- C4: `_iterate` returns the concatenation, in page order, of the lists
found under the given response key across all pages; the pages are
followed until the source reports no further page, and concatenation
introduces no duplicates (the three-pages-of-two fixture yields exactly
the six items, in page order, with no duplicates).  When the endpoint
has no `list_next` (AttributeError), `_iterate` terminates normally and
returns exactly the first page's items. -/
theorem C4_iterate_pagination :
    (∀ (α : Type) (ep : DiscoveryEndpoint α) (key : String),
      ep.hasListNext = true →
      BaseDiscoveryClient._iterate ep key
        = (ep.pages.map (fun p => p.get key)).flatten)
    ∧ (∀ (α : Type) (ep : DiscoveryEndpoint α) (key : String)
        (p : Page α) (rest : List (Page α)),
      ep.hasListNext = false → ep.pages = p :: rest →
      BaseDiscoveryClient._iterate ep key = p.get key)
    ∧ BaseDiscoveryClient._iterate pagEx "items" = [1, 2, 3, 4, 5, 6]
    ∧ (BaseDiscoveryClient._iterate pagEx "items").Nodup
    ∧ BaseDiscoveryClient._iterate pagNoNext "items" = [1, 2] := by
  refine ⟨?_, ?_, by rfl, by decide, by rfl⟩
  · intro α ep key h
    rw [BaseDiscoveryClient._iterate, h, iterPages_flatten]
  · intro α ep key p rest h hp
    rw [BaseDiscoveryClient._iterate, h, hp]
    rfl

theorem C4_witness :
    BaseDiscoveryClient._iterate pagEx "items"
      = (pagEx.pages.map (fun p => p.get "items")).flatten :=
  C4_iterate_pagination.1 Nat pagEx "items" (by rfl)

/-- C5: when the per-location routine raises an `HttpError` for one
location, the loop continues to the next location iff the HTTP status is
>= 500 or the message contains "Unexpected location"; any other
`HttpError` propagates, aborting the remaining locations of that kind. -/
theorem C5_location_error_policy :
    ∀ (act : String → Except HttpError Unit) (loc : String)
      (rest : List String) (e : HttpError), act loc = .error e →
      ((500 ≤ e.status ∨ strContains e.message "Unexpected location" = true) →
        BaseDiscoveryClient._delete_in_all_locations act (loc :: rest)
          = (loc :: (BaseDiscoveryClient._delete_in_all_locations act rest).fst,
             (BaseDiscoveryClient._delete_in_all_locations act rest).snd))
      ∧ (e.status < 500 → strContains e.message "Unexpected location" = false →
        BaseDiscoveryClient._delete_in_all_locations act (loc :: rest)
          = ([loc], some e)) := by
  intro act loc rest e he
  constructor
  · intro htol
    rw [BaseDiscoveryClient._delete_in_all_locations, he]
    dsimp only
    rcases htol with h5 | hu
    · rw [if_pos h5]
    · rcases Nat.lt_or_ge e.status 500 with hlt | hge
      · rw [if_neg (by omega), hu, if_pos rfl]
      · rw [if_pos hge]
  · intro hlt hnc
    rw [BaseDiscoveryClient._delete_in_all_locations, he]
    dsimp only
    rw [if_neg (by omega), hnc]
    rfl

theorem C5_witness :
    BaseDiscoveryClient._delete_in_all_locations act503 ["loc-a", "loc-b"]
      = ("loc-a" :: (BaseDiscoveryClient._delete_in_all_locations act503 ["loc-b"]).fst,
         (BaseDiscoveryClient._delete_in_all_locations act503 ["loc-b"]).snd) :=
  (C5_location_error_policy act503 "loc-a" ["loc-b"]
    ⟨503, "Service Unavailable"⟩ (by rfl)).1 (Or.inl (by decide))

/-- C6: every exception raised by a delete call inside `_delete` is
caught and never propagated; the attempt is logged with the singularized
resource-kind name and the resource identifier, and the failure warning
carries the singularized name; hence in a sequence of deletes where one
call raises, every resource is still attempted (three stale unprotected
resources, the second of which raises: all three attempted, first and
third deleted). -/
theorem C6_delete_isolation :
    (∀ (rn id e : String),
      BaseDiscoveryClient._delete rn id (.error e)
        = (false,
           [⟨.info, "Deleting " ++ BaseDiscoveryClient._singular_name rn ++ ": " ++ id⟩,
            ⟨.warning, "Failed to delete " ++ BaseDiscoveryClient._singular_name rn
              ++ ": " ++ e⟩]))
    ∧ (∀ rn id : String,
      BaseDiscoveryClient._delete rn id (.ok ())
        = (true,
           [⟨.info, "Deleting " ++ BaseDiscoveryClient._singular_name rn ++ ": " ++ id⟩]))
    ∧ (∀ (rn : String) (dc : String → Except String Unit) (ids : List String),
      (deleteSequence rn dc ids).map Prod.fst = ids)
    ∧ deleteSequence "disks" failSecond ["r1", "r2", "r3"]
        = [("r1", true), ("r2", false), ("r3", true)]
    ∧ BaseDiscoveryClient._singular_name "disks" = "disk" := by
  refine ⟨fun rn id e => rfl, fun rn id => rfl, ?_, by rfl, by rfl⟩
  intro rn dc ids
  simp [deleteSequence, Function.comp_def]

theorem warnings_run_cleaning (name : String) (func : Except String Unit) :
    (run_cleaning name func).filterMap pickWarning
      = ["Attempting to clean " ++ name] := by
  cases func <;> rfl

/-- C7: the top-level run invokes the six per-kind cleanup operations in
the fixed order composer environments, GKE clusters, dataproc clusters,
compute instances, compute disks, memorystore redis instances; each is
wrapped in `run_cleaning`, so whatever each kind's outcome is, all six
are attempted (the attempt log is the same for every outcome assignment)
and the run completes normally (`delete_resources` is total). -/
theorem C7_orchestration_order :
    ∀ outcome : String → Except String Unit,
      warningMessages (delete_resources outcome)
        = ["Attempting to clean composer instances",
           "Attempting to clean GKE clusters",
           "Attempting to clean dataproc clusters",
           "Attempting to clean compute instances",
           "Attempting to clean compute disks",
           "Attempting to clean memorystore redis instances"] := by
  intro outcome
  show List.filterMap pickWarning _ = _
  rw [delete_resources]
  rw [List.filterMap_cons]
  simp only [List.filterMap_append, warnings_run_cleaning]
  rfl

theorem processObjs_sound (p en : String) (lN uN : Int) :
    ∀ (objs : List ComputeResource) (c : ComputeDeleteCall),
      c ∈ (ComputeClient.processObjs p en lN uN objs).fst →
      ∃ obj ∈ objs, hasLabelKey obj.labels SKIP_LABEL = false ∧
        BaseDiscoveryClient.is_stale obj.creationTimestamp lN uN = .ok true ∧
        hasNoUsersOf obj.users = true ∧
        c = ComputeClient.mkDeleteCall p en obj := by
  intro objs
  induction objs with
  | nil => intro c hc; simp [ComputeClient.processObjs] at hc
  | cons obj rest ih =>
    intro c hc
    rw [ComputeClient.processObjs] at hc
    rcases hst : BaseDiscoveryClient.is_stale obj.creationTimestamp lN uN with e | stale
    · rw [hst] at hc
      simp at hc
    · rw [hst] at hc
      dsimp only at hc
      by_cases hcond : (!hasLabelKey obj.labels SKIP_LABEL && stale
          && hasNoUsersOf obj.users) = true
      · rw [if_pos hcond] at hc
        simp only [Bool.and_eq_true, Bool.not_eq_true'] at hcond
        rcases List.mem_cons.mp hc with heq | hmem
        · refine ⟨obj, List.mem_cons_self obj rest, hcond.1.1, ?_, hcond.2, heq⟩
          rw [hst, hcond.1.2]
        · rcases ih c hmem with ⟨o, ho, h1, h2, h3, h4⟩
          exact ⟨o, List.mem_cons_of_mem obj ho, h1, h2, h3, h4⟩
      · rw [if_neg hcond] at hc
        rcases ih c hc with ⟨o, ho, h1, h2, h3, h4⟩
        exact ⟨o, List.mem_cons_of_mem obj ho, h1, h2, h3, h4⟩

theorem _delete_all_sound (p en : String)
    (eps : String → DiscoveryEndpoint ComputeResource) (lN uN : Int) :
    ∀ (zones : List String) (c : ComputeDeleteCall),
      c ∈ (ComputeClient._delete_all p en zones eps lN uN).fst →
      ∃ z ∈ zones, ∃ obj ∈ BaseDiscoveryClient._iterate (eps z) "items",
        hasLabelKey obj.labels SKIP_LABEL = false ∧
        BaseDiscoveryClient.is_stale obj.creationTimestamp lN uN = .ok true ∧
        hasNoUsersOf obj.users = true ∧
        c = ComputeClient.mkDeleteCall p en obj := by
  intro zones
  induction zones with
  | nil => intro c hc; simp [ComputeClient._delete_all] at hc
  | cons z rest ih =>
    intro c hc
    rw [ComputeClient._delete_all] at hc
    dsimp only at hc
    rcases hsnd : (ComputeClient.processObjs p en lN uN
        (BaseDiscoveryClient._iterate (eps z) "items")).snd with _ | e
    · rw [hsnd] at hc
      dsimp only at hc
      rcases List.mem_append.mp hc with hl | hr
      · rcases processObjs_sound p en lN uN _ c hl with ⟨obj, ho, h1, h2, h3, h4⟩
        exact ⟨z, List.mem_cons_self z rest, obj, ho, h1, h2, h3, h4⟩
      · rcases ih c hr with ⟨z2, hz2, obj, ho, h1, h2, h3, h4⟩
        exact ⟨z2, List.mem_cons_of_mem z hz2, obj, ho, h1, h2, h3, h4⟩
    · rw [hsnd] at hc
      dsimp only at hc
      rcases processObjs_sound p en lN uN _ c hc with ⟨obj, ho, h1, h2, h3, h4⟩
      exact ⟨z, List.mem_cons_self z rest, obj, ho, h1, h2, h3, h4⟩

theorem gkeProcess_sound (p : String) (lN uN : Int) :
    ∀ (cls : List GKECluster) (c : GKEDeleteCall),
      c ∈ (GKEClient.processClusters p lN uN cls).fst →
      ∃ cl ∈ cls, hasLabelKey cl.resourceLabels SKIP_LABEL = false ∧
        BaseDiscoveryClient.is_stale cl.createTime lN uN = .ok true ∧
        c = GKEClient.mkDeleteCall p cl := by
  intro cls
  induction cls with
  | nil => intro c hc; simp [GKEClient.processClusters] at hc
  | cons cl rest ih =>
    intro c hc
    rw [GKEClient.processClusters] at hc
    by_cases hl : hasLabelKey cl.resourceLabels SKIP_LABEL = true
    · rw [if_pos hl] at hc
      rcases ih c hc with ⟨o, ho, h1, h2, h3⟩
      exact ⟨o, List.mem_cons_of_mem cl ho, h1, h2, h3⟩
    · rw [if_neg hl] at hc
      rcases hst : BaseDiscoveryClient.is_stale cl.createTime lN uN with e | stale
      · rw [hst] at hc; simp at hc
      · rw [hst] at hc
        dsimp only at hc
        cases stale with
        | false =>
          rw [if_neg (by simp)] at hc
          rcases ih c hc with ⟨o, ho, h1, h2, h3⟩
          exact ⟨o, List.mem_cons_of_mem cl ho, h1, h2, h3⟩
        | true =>
          rw [if_pos rfl] at hc
          rcases List.mem_cons.mp hc with heq | hmem
          · exact ⟨cl, List.mem_cons_self cl rest,
              Bool.eq_false_iff.mpr hl, hst, heq⟩
          · rcases ih c hmem with ⟨o, ho, h1, h2, h3⟩
            exact ⟨o, List.mem_cons_of_mem cl ho, h1, h2, h3⟩

theorem dataprocProcess_sound (p loc : String) (lN uN : Int) :
    ∀ (cls : List DataprocCluster) (c : DataprocDeleteCall),
      c ∈ (DataprocClient.processClusters p loc lN uN cls).fst →
      ∃ cl ∈ cls, hasLabelKey cl.labels SKIP_LABEL = false ∧
        BaseDiscoveryClient.is_stale cl.stateStartTime lN uN = .ok true ∧
        c = DataprocClient.mkDeleteCall p loc cl := by
  intro cls
  induction cls with
  | nil => intro c hc; simp [DataprocClient.processClusters] at hc
  | cons cl rest ih =>
    intro c hc
    rw [DataprocClient.processClusters] at hc
    by_cases hl : hasLabelKey cl.labels SKIP_LABEL = true
    · rw [if_pos hl] at hc
      rcases ih c hc with ⟨o, ho, h1, h2, h3⟩
      exact ⟨o, List.mem_cons_of_mem cl ho, h1, h2, h3⟩
    · rw [if_neg hl] at hc
      rcases hst : BaseDiscoveryClient.is_stale cl.stateStartTime lN uN with e | stale
      · rw [hst] at hc; simp at hc
      · rw [hst] at hc
        dsimp only at hc
        cases stale with
        | false =>
          rw [if_neg (by simp)] at hc
          rcases ih c hc with ⟨o, ho, h1, h2, h3⟩
          exact ⟨o, List.mem_cons_of_mem cl ho, h1, h2, h3⟩
        | true =>
          rw [if_pos rfl] at hc
          rcases List.mem_cons.mp hc with heq | hmem
          · exact ⟨cl, List.mem_cons_self cl rest,
              Bool.eq_false_iff.mpr hl, hst, heq⟩
          · rcases ih c hmem with ⟨o, ho, h1, h2, h3⟩
            exact ⟨o, List.mem_cons_of_mem cl ho, h1, h2, h3⟩

theorem composerProcess_sound (lN uN : Int) :
    ∀ (envs : List ComposerEnv) (c : ComposerDeleteCall),
      c ∈ (ComposerClient.processEnvs lN uN envs).fst →
      ∃ env ∈ envs, hasLabelKey env.labels SKIP_LABEL = false ∧
        BaseDiscoveryClient.is_stale env.updateTime lN uN = .ok true ∧
        c = ⟨env.name⟩ := by
  intro envs
  induction envs with
  | nil => intro c hc; simp [ComposerClient.processEnvs] at hc
  | cons env rest ih =>
    intro c hc
    rw [ComposerClient.processEnvs] at hc
    by_cases hl : hasLabelKey env.labels SKIP_LABEL = true
    · rw [if_pos hl] at hc
      rcases ih c hc with ⟨o, ho, h1, h2, h3⟩
      exact ⟨o, List.mem_cons_of_mem env ho, h1, h2, h3⟩
    · rw [if_neg hl] at hc
      rcases hst : BaseDiscoveryClient.is_stale env.updateTime lN uN with e | stale
      · rw [hst] at hc; simp at hc
      · rw [hst] at hc
        dsimp only at hc
        cases stale with
        | false =>
          rw [if_neg (by simp)] at hc
          rcases ih c hc with ⟨o, ho, h1, h2, h3⟩
          exact ⟨o, List.mem_cons_of_mem env ho, h1, h2, h3⟩
        | true =>
          rw [if_pos rfl] at hc
          rcases List.mem_cons.mp hc with heq | hmem
          · exact ⟨env, List.mem_cons_self env rest,
              Bool.eq_false_iff.mpr hl, hst, heq⟩
          · rcases ih c hmem with ⟨o, ho, h1, h2, h3⟩
            exact ⟨o, List.mem_cons_of_mem env ho, h1, h2, h3⟩

theorem redisProcess_sound (lN uN : Int) :
    ∀ (insts : List RedisInstance) (c : RedisDeleteCall),
      c ∈ (MemorystoreRedisClient.processInstances lN uN insts).fst →
      ∃ inst ∈ insts, hasLabelKey inst.labels SKIP_LABEL = false ∧
        BaseDiscoveryClient.is_stale inst.createTime lN uN = .ok true ∧
        c = ⟨inst.name⟩ := by
  intro insts
  induction insts with
  | nil => intro c hc; simp [MemorystoreRedisClient.processInstances] at hc
  | cons inst rest ih =>
    intro c hc
    rw [MemorystoreRedisClient.processInstances] at hc
    by_cases hl : hasLabelKey inst.labels SKIP_LABEL = true
    · rw [if_pos hl] at hc
      rcases ih c hc with ⟨o, ho, h1, h2, h3⟩
      exact ⟨o, List.mem_cons_of_mem inst ho, h1, h2, h3⟩
    · rw [if_neg hl] at hc
      rcases hst : BaseDiscoveryClient.is_stale inst.createTime lN uN with e | stale
      · rw [hst] at hc; simp at hc
      · rw [hst] at hc
        dsimp only at hc
        cases stale with
        | false =>
          rw [if_neg (by simp)] at hc
          rcases ih c hc with ⟨o, ho, h1, h2, h3⟩
          exact ⟨o, List.mem_cons_of_mem inst ho, h1, h2, h3⟩
        | true =>
          rw [if_pos rfl] at hc
          rcases List.mem_cons.mp hc with heq | hmem
          · exact ⟨inst, List.mem_cons_self inst rest,
              Bool.eq_false_iff.mpr hl, hst, heq⟩
          · rcases ih c hmem with ⟨o, ho, h1, h2, h3⟩
            exact ⟨o, List.mem_cons_of_mem inst ho, h1, h2, h3⟩

/-- C1: every delete call any cleanup pass issues originates from a
resource descriptor whose kind-specific label mapping (`labels` for
compute, dataproc, composer and redis, `resourceLabels` for GKE) does
not contain the key "please-do-not-kill-me"; hence a descriptor carrying
that key, with any value, is never the subject of a delete operation,
regardless of its timestamp or liveness field. -/
theorem C1_protection_label :
    (∀ (p en : String) (zones : List String)
      (eps : String → DiscoveryEndpoint ComputeResource) (lN uN : Int)
      (c : ComputeDeleteCall),
      c ∈ (ComputeClient._delete_all p en zones eps lN uN).fst →
      ∃ z ∈ zones, ∃ obj ∈ BaseDiscoveryClient._iterate (eps z) "items",
        hasLabelKey obj.labels SKIP_LABEL = false ∧
        c = ComputeClient.mkDeleteCall p en obj)
    ∧ (∀ (p : String) (resp : Option (List GKECluster)) (lN uN : Int)
      (c : GKEDeleteCall),
      c ∈ (GKEClient.delete_all_clusters p resp lN uN).fst →
      ∃ cls, resp = some cls ∧ ∃ cl ∈ cls,
        hasLabelKey cl.resourceLabels SKIP_LABEL = false ∧
        c = GKEClient.mkDeleteCall p cl)
    ∧ (∀ (p loc : String) (ep : DiscoveryEndpoint DataprocCluster) (lN uN : Int)
      (c : DataprocDeleteCall),
      c ∈ (DataprocClient._delete_all_in_location p loc ep lN uN).fst →
      ∃ cl ∈ BaseDiscoveryClient._iterate ep "clusters",
        hasLabelKey cl.labels SKIP_LABEL = false ∧
        c = DataprocClient.mkDeleteCall p loc cl)
    ∧ (∀ (ep : DiscoveryEndpoint ComposerEnv) (lN uN : Int)
      (c : ComposerDeleteCall),
      c ∈ (ComposerClient._delete_all_in_location ep lN uN).fst →
      ∃ env ∈ BaseDiscoveryClient._iterate ep "environments",
        hasLabelKey env.labels SKIP_LABEL = false ∧ c = ⟨env.name⟩)
    ∧ (∀ (ep : DiscoveryEndpoint RedisInstance) (lN uN : Int)
      (c : RedisDeleteCall),
      c ∈ (MemorystoreRedisClient._delete_all_in_location ep lN uN).fst →
      ∃ inst ∈ BaseDiscoveryClient._iterate ep "instances",
        hasLabelKey inst.labels SKIP_LABEL = false ∧ c = ⟨inst.name⟩) := by
  refine ⟨?_, ?_, ?_, ?_, ?_⟩
  · intro p en zones eps lN uN c hc
    rcases _delete_all_sound p en eps lN uN zones c hc with
      ⟨z, hz, obj, ho, h1, _, _, h4⟩
    exact ⟨z, hz, obj, ho, h1, h4⟩
  · intro p resp lN uN c hc
    cases resp with
    | none => simp [GKEClient.delete_all_clusters] at hc
    | some cls =>
      rcases gkeProcess_sound p lN uN cls c hc with ⟨cl, hcl, h1, _, h3⟩
      exact ⟨cls, rfl, cl, hcl, h1, h3⟩
  · intro p loc ep lN uN c hc
    rcases dataprocProcess_sound p loc lN uN _ c hc with ⟨cl, hcl, h1, _, h3⟩
    exact ⟨cl, hcl, h1, h3⟩
  · intro ep lN uN c hc
    rcases composerProcess_sound lN uN _ c hc with ⟨env, henv, h1, _, h3⟩
    exact ⟨env, henv, h1, h3⟩
  · intro ep lN uN c hc
    rcases redisProcess_sound lN uN _ c hc with ⟨inst, hi, h1, _, h3⟩
    exact ⟨inst, hi, h1, h3⟩

theorem C1_witness :
    ∃ z ∈ ["zone-a"],
      ∃ obj ∈ BaseDiscoveryClient._iterate (epsProtectedPair z) "items",
        hasLabelKey obj.labels SKIP_LABEL = false ∧
        ({ project := "p", zone := "zone-b", resourceKey := "disk",
           resourceId := "disk-1" } : ComputeDeleteCall)
          = ComputeClient.mkDeleteCall "p" "disks" obj :=
  C1_protection_label.1 "p" "disks" ["zone-a"] epsProtectedPair
    now20200103 now20200103 _ (by rw [show (ComputeClient._delete_all "p"
      "disks" ["zone-a"] epsProtectedPair now20200103 now20200103).fst
      = [{ project := "p", zone := "zone-b", resourceKey := "disk",
           resourceId := "disk-1" }] from rfl]; exact List.mem_singleton.mpr rfl)

theorem processObjs_char (p en : String) (lN uN : Int) :
    ∀ objs : List ComputeResource,
      (∀ obj ∈ objs, ∃ b,
        BaseDiscoveryClient.is_stale obj.creationTimestamp lN uN = .ok b) →
      ComputeClient.processObjs p en lN uN objs
        = ((objs.filter (fun o => !hasLabelKey o.labels SKIP_LABEL
              && staleOk o.creationTimestamp lN uN && hasNoUsersOf o.users)).map
            (ComputeClient.mkDeleteCall p en), none) := by
  intro objs
  induction objs with
  | nil => intro _; rfl
  | cons obj rest ih =>
    intro h
    rcases h obj (List.mem_cons_self obj rest) with ⟨b, hb⟩
    have hso : staleOk obj.creationTimestamp lN uN = b := by
      unfold staleOk; rw [hb]
    rw [ComputeClient.processObjs, hb]
    dsimp only
    rw [ih (fun o ho => h o (List.mem_cons_of_mem obj ho))]
    rw [← hso, List.filter_cons]
    by_cases hcond : (!hasLabelKey obj.labels SKIP_LABEL
        && staleOk obj.creationTimestamp lN uN && hasNoUsersOf obj.users) = true
    · rw [if_pos hcond, if_pos hcond, List.map_cons]
    · rw [if_neg hcond, if_neg hcond]

theorem _delete_all_char (p en : String)
    (eps : String → DiscoveryEndpoint ComputeResource) (lN uN : Int) :
    ∀ zones : List String,
      (∀ z ∈ zones, ∀ obj ∈ BaseDiscoveryClient._iterate (eps z) "items",
        ∃ b, BaseDiscoveryClient.is_stale obj.creationTimestamp lN uN = .ok b) →
      ComputeClient._delete_all p en zones eps lN uN
        = (zones.flatMap (fun z =>
            ((BaseDiscoveryClient._iterate (eps z) "items").filter
              (fun o => !hasLabelKey o.labels SKIP_LABEL
                && staleOk o.creationTimestamp lN uN && hasNoUsersOf o.users)).map
              (ComputeClient.mkDeleteCall p en)), none) := by
  intro zones
  induction zones with
  | nil => intro _; rfl
  | cons z rest ih =>
    intro h
    rw [ComputeClient._delete_all]
    dsimp only
    rw [processObjs_char p en lN uN _ (h z (List.mem_cons_self z rest))]
    dsimp only
    rw [ih (fun z2 hz2 => h z2 (List.mem_cons_of_mem z hz2))]
    rw [List.flatMap_cons]

theorem dataprocProcess_char (p loc : String) (lN uN : Int) :
    ∀ cls : List DataprocCluster,
      (∀ cl ∈ cls, hasLabelKey cl.labels SKIP_LABEL = false →
        ∃ b, BaseDiscoveryClient.is_stale cl.stateStartTime lN uN = .ok b) →
      DataprocClient.processClusters p loc lN uN cls
        = ((cls.filter (fun cl => !hasLabelKey cl.labels SKIP_LABEL
              && staleOk cl.stateStartTime lN uN)).map
            (DataprocClient.mkDeleteCall p loc), none) := by
  intro cls
  induction cls with
  | nil => intro _; rfl
  | cons cl rest ih =>
    intro h
    rw [DataprocClient.processClusters, List.filter_cons]
    by_cases hl : hasLabelKey cl.labels SKIP_LABEL = true
    · rw [if_pos hl]
      rw [ih (fun o ho hol => h o (List.mem_cons_of_mem cl ho) hol)]
      rw [if_neg (by rw [hl]; simp)]
    · have hl' : hasLabelKey cl.labels SKIP_LABEL = false := Bool.eq_false_iff.mpr hl
      rcases h cl (List.mem_cons_self cl rest) hl' with ⟨b, hb⟩
      have hso : staleOk cl.stateStartTime lN uN = b := by
        unfold staleOk; rw [hb]
      rw [if_neg hl, hb]
      dsimp only
      rw [ih (fun o ho hol => h o (List.mem_cons_of_mem cl ho) hol)]
      rw [← hso]
      by_cases hcond : staleOk cl.stateStartTime lN uN = true
      · rw [if_pos hcond, if_pos (by rw [hl', hcond]; rfl), List.map_cons]
      · rw [if_neg hcond, if_neg (by rw [hl']; simpa using hcond)]

/-- C2: for every enumerated resource descriptor, the cleanup pass
invokes the delete operation on it iff the protection label is absent
AND `is_stale` of the kind's timestamp field returns true AND, for the
compute kind (which has a liveness field), the `users` field is absent
or empty: when every staleness check returns normally, the issued delete
calls are exactly the filtered enumeration, kept in order (compute over
all zones, dataproc within a location). -/
theorem C2_stale_liveness_iff :
    (∀ (p en : String) (eps : String → DiscoveryEndpoint ComputeResource)
      (lN uN : Int) (zones : List String),
      (∀ z ∈ zones, ∀ obj ∈ BaseDiscoveryClient._iterate (eps z) "items",
        ∃ b, BaseDiscoveryClient.is_stale obj.creationTimestamp lN uN = .ok b) →
      ComputeClient._delete_all p en zones eps lN uN
        = (zones.flatMap (fun z =>
            ((BaseDiscoveryClient._iterate (eps z) "items").filter
              (fun o => !hasLabelKey o.labels SKIP_LABEL
                && staleOk o.creationTimestamp lN uN && hasNoUsersOf o.users)).map
              (ComputeClient.mkDeleteCall p en)), none))
    ∧ (∀ (p loc : String) (ep : DiscoveryEndpoint DataprocCluster) (lN uN : Int),
      (∀ cl ∈ BaseDiscoveryClient._iterate ep "clusters",
        hasLabelKey cl.labels SKIP_LABEL = false →
        ∃ b, BaseDiscoveryClient.is_stale cl.stateStartTime lN uN = .ok b) →
      DataprocClient._delete_all_in_location p loc ep lN uN
        = (((BaseDiscoveryClient._iterate ep "clusters").filter
            (fun cl => !hasLabelKey cl.labels SKIP_LABEL
              && staleOk cl.stateStartTime lN uN)).map
            (DataprocClient.mkDeleteCall p loc), none)) := by
  constructor
  · intro p en eps lN uN zones h
    exact _delete_all_char p en eps lN uN zones h
  · intro p loc ep lN uN h
    exact dataprocProcess_char p loc lN uN _ h

theorem C2_witness :
    ComputeClient._delete_all "p" "disks" ["zone-a"] epsZoneDrift
        now20200103 now20200103
      = (["zone-a"].flatMap (fun z =>
          ((BaseDiscoveryClient._iterate (epsZoneDrift z) "items").filter
            (fun o => !hasLabelKey o.labels SKIP_LABEL
              && staleOk o.creationTimestamp now20200103 now20200103
              && hasNoUsersOf o.users)).map
            (ComputeClient.mkDeleteCall "p" "disks")), none) :=
  C2_stale_liveness_iff.1 "p" "disks" epsZoneDrift now20200103 now20200103
    ["zone-a"]
    (by
      intro z hz obj ho
      rw [show BaseDiscoveryClient._iterate (epsZoneDrift z) "items"
        = [objZoneDrift] from rfl] at ho
      rcases List.mem_cons.mp ho with hobj | hobj
      · exact ⟨true, by rw [hobj]; rfl⟩
      · simp at hobj)

/-- C8: every compute delete payload takes its zone from the resource's
own `zone` field (last path segment), not from the enumeration loop
variable, and maps the singularized endpoint name to the resource's id;
concretely, a resource listed while iterating zone "zone-a" but whose
own `zone` URL ends in "zone-b" is deleted with zone "zone-b". -/
theorem C8_delete_payload_shape :
    (∀ (p en : String) (zones : List String)
      (eps : String → DiscoveryEndpoint ComputeResource) (lN uN : Int)
      (c : ComputeDeleteCall),
      c ∈ (ComputeClient._delete_all p en zones eps lN uN).fst →
      ∃ z ∈ zones, ∃ obj ∈ BaseDiscoveryClient._iterate (eps z) "items",
        c.project = p ∧ c.zone = lastPathSegment obj.zone ∧
        c.resourceKey = BaseDiscoveryClient._singular_name en ∧
        c.resourceId = obj.id)
    ∧ (ComputeClient._delete_all "p" "disks" ["zone-a"] epsZoneDrift
        now20200103 now20200103).fst
        = [{ project := "p", zone := "zone-b", resourceKey := "disk",
             resourceId := "disk-1" }] := by
  constructor
  · intro p en zones eps lN uN c hc
    rcases _delete_all_sound p en eps lN uN zones c hc with
      ⟨z, hz, obj, ho, _, _, _, h4⟩
    exact ⟨z, hz, obj, ho, by rw [h4]; exact ⟨rfl, rfl, rfl, rfl⟩⟩
  · rfl

theorem C8_witness :
    ∃ z ∈ ["zone-a"],
      ∃ obj ∈ BaseDiscoveryClient._iterate (epsZoneDrift z) "items",
        ({ project := "p", zone := "zone-b", resourceKey := "disk",
           resourceId := "disk-1" } : ComputeDeleteCall).project = "p" ∧
        ({ project := "p", zone := "zone-b", resourceKey := "disk",
           resourceId := "disk-1" } : ComputeDeleteCall).zone
          = lastPathSegment obj.zone ∧
        ({ project := "p", zone := "zone-b", resourceKey := "disk",
           resourceId := "disk-1" } : ComputeDeleteCall).resourceKey
          = BaseDiscoveryClient._singular_name "disks" ∧
        ({ project := "p", zone := "zone-b", resourceKey := "disk",
           resourceId := "disk-1" } : ComputeDeleteCall).resourceId = obj.id :=
  C8_delete_payload_shape.1 "p" "disks" ["zone-a"] epsZoneDrift
    now20200103 now20200103 _
    (by rw [C8_delete_payload_shape.2]; exact List.mem_singleton.mpr rfl)

theorem processObjs_name_uniform (p : String) (lN uN : Int) (e1 e2 : String) :
    ∀ objs : List ComputeResource,
      ((ComputeClient.processObjs p e1 lN uN objs).fst).map
          (fun c => (c.zone, c.resourceId))
        = ((ComputeClient.processObjs p e2 lN uN objs).fst).map
          (fun c => (c.zone, c.resourceId))
      ∧ (ComputeClient.processObjs p e1 lN uN objs).snd
        = (ComputeClient.processObjs p e2 lN uN objs).snd := by
  intro objs
  induction objs with
  | nil => exact ⟨rfl, rfl⟩
  | cons obj rest ih =>
    rw [ComputeClient.processObjs, ComputeClient.processObjs]
    rcases hst : BaseDiscoveryClient.is_stale obj.creationTimestamp lN uN
      with e | stale
    · exact ⟨rfl, rfl⟩
    · dsimp only
      by_cases hcond : (!hasLabelKey obj.labels SKIP_LABEL && stale
          && hasNoUsersOf obj.users) = true
      · rw [if_pos hcond, if_pos hcond]
        refine ⟨?_, ih.2⟩
        rw [List.map_cons, List.map_cons, ih.1]
        rfl
      · rw [if_neg hcond, if_neg hcond]
        exact ih

theorem _delete_all_name_uniform (p : String)
    (eps : String → DiscoveryEndpoint ComputeResource) (lN uN : Int)
    (e1 e2 : String) :
    ∀ zones : List String,
      ((ComputeClient._delete_all p e1 zones eps lN uN).fst).map
          (fun c => (c.zone, c.resourceId))
        = ((ComputeClient._delete_all p e2 zones eps lN uN).fst).map
          (fun c => (c.zone, c.resourceId))
      ∧ (ComputeClient._delete_all p e1 zones eps lN uN).snd
        = (ComputeClient._delete_all p e2 zones eps lN uN).snd := by
  intro zones
  induction zones with
  | nil => exact ⟨rfl, rfl⟩
  | cons z rest ih =>
    rw [ComputeClient._delete_all, ComputeClient._delete_all]
    dsimp only
    have hu := processObjs_name_uniform p lN uN e1 e2
      (BaseDiscoveryClient._iterate (eps z) "items")
    rcases hsnd : (ComputeClient.processObjs p e1 lN uN
        (BaseDiscoveryClient._iterate (eps z) "items")).snd with _ | err
    · have hsnd2 := hu.2.symm.trans hsnd
      rw [hsnd2]
      dsimp only
      exact ⟨by rw [List.map_append, List.map_append, hu.1, ih.1], ih.2⟩
    · have hsnd2 := hu.2.symm.trans hsnd
      rw [hsnd2]
      dsimp only
      exact ⟨hu.1, rfl⟩

/-- C10: the compute liveness check is applied uniformly to both disks
and instances: every issued compute delete call originates from a
resource whose `users` field is absent or empty (so a descriptor with a
non-empty `users` list is never deleted, even when unprotected and
stale); the selection is independent of the endpoint name (the traces
for any two endpoint names agree up to the payload naming), and on the
stale unprotected fixtures, the resource with users is skipped while the
ones with no `users` key or an empty list are deleted, identically for
"instances" and "disks". -/
theorem C10_users_liveness_uniform :
    (∀ (p en : String) (zones : List String)
      (eps : String → DiscoveryEndpoint ComputeResource) (lN uN : Int)
      (c : ComputeDeleteCall),
      c ∈ (ComputeClient._delete_all p en zones eps lN uN).fst →
      ∃ z ∈ zones, ∃ obj ∈ BaseDiscoveryClient._iterate (eps z) "items",
        hasNoUsersOf obj.users = true ∧ c = ComputeClient.mkDeleteCall p en obj)
    ∧ (∀ (p : String) (zones : List String)
      (eps : String → DiscoveryEndpoint ComputeResource) (lN uN : Int)
      (e1 e2 : String),
      ((ComputeClient._delete_all p e1 zones eps lN uN).fst).map
          (fun c => (c.zone, c.resourceId))
        = ((ComputeClient._delete_all p e2 zones eps lN uN).fst).map
          (fun c => (c.zone, c.resourceId))
      ∧ (ComputeClient._delete_all p e1 zones eps lN uN).snd
        = (ComputeClient._delete_all p e2 zones eps lN uN).snd)
    ∧ ComputeClient.processObjs "p" "instances" now20200103 now20200103
        [objWithUsers, objNoUsersField, objEmptyUsers]
        = ([ComputeClient.mkDeleteCall "p" "instances" objNoUsersField,
            ComputeClient.mkDeleteCall "p" "instances" objEmptyUsers], none)
    ∧ ComputeClient.processObjs "p" "disks" now20200103 now20200103
        [objWithUsers, objNoUsersField, objEmptyUsers]
        = ([ComputeClient.mkDeleteCall "p" "disks" objNoUsersField,
            ComputeClient.mkDeleteCall "p" "disks" objEmptyUsers], none) := by
  refine ⟨?_, ?_, rfl, rfl⟩
  · intro p en zones eps lN uN c hc
    rcases _delete_all_sound p en eps lN uN zones c hc with
      ⟨z, hz, obj, ho, _, _, h3, h4⟩
    exact ⟨z, hz, obj, ho, h3, h4⟩
  · intro p zones eps lN uN e1 e2
    exact _delete_all_name_uniform p eps lN uN e1 e2 zones

theorem C10_witness :
    ∃ z ∈ ["zone-a"],
      ∃ obj ∈ BaseDiscoveryClient._iterate (epsProtectedPair z) "items",
        hasNoUsersOf obj.users = true ∧
        ({ project := "p", zone := "zone-b", resourceKey := "instance",
           resourceId := "disk-1" } : ComputeDeleteCall)
          = ComputeClient.mkDeleteCall "p" "instances" obj :=
  C10_users_liveness_uniform.1 "p" "instances" ["zone-a"] epsProtectedPair
    now20200103 now20200103 _
    (by rw [show (ComputeClient._delete_all "p" "instances" ["zone-a"]
        epsProtectedPair now20200103 now20200103).fst
      = [{ project := "p", zone := "zone-b", resourceKey := "instance",
           resourceId := "disk-1" }] from rfl]; exact List.mem_singleton.mpr rfl)
